/-
Verification of the mpkv note-vault storage subsystem.

The development embeds the storage core shallowly:
* field validators (`titleValidate`, `contentValidate`, `tagsValidate`)
  mirror `vault/fields.py`;
* the note entity (`PyNote`, `mkNote`, `toDict`, `fromDict`) mirrors
  `vault/models.py`;
* the vault state machine (`Vault`, `load_index`, `save_index`,
  `create_note`, `search_notes`, ...) mirrors `vault/core.py`, with the
  file system represented as an explicit state record and fallible
  operations returning `Except` plus the post-state.

Machine strings are Lean `String`s; Python `datetime` values created by
the repository are UTC instants, modelled as a natural number together
with a decimal rendering (`isoformat`) and parser (`fromisoformat`)
standing in for the lossless ISO-8601 round-trip of the standard
library.
-/
import Mathlib

namespace Mpkv

/-! ### Association lists modelling Python dicts (insertion ordered) -/

def alookup {β : Type} (k : String) : List (String × β) → Option β
  | [] => none
  | (k', v) :: t => if k' = k then some v else alookup k t

def ainsert {β : Type} (k : String) (v : β) : List (String × β) → List (String × β)
  | [] => [(k, v)]
  | (k', w) :: t => if k' = k then (k, v) :: t else (k', w) :: ainsert k v t

def aerase {β : Type} (k : String) : List (String × β) → List (String × β)
  | [] => []
  | (k', w) :: t => if k' = k then t else (k', w) :: aerase k t

theorem alookup_ainsert_self {β : Type} (k : String) (v : β) (l : List (String × β)) :
    alookup k (ainsert k v l) = some v := by
  induction l with
  | nil => simp [ainsert, alookup]
  | cons hd t ih =>
    obtain ⟨k', w⟩ := hd
    by_cases hk : k' = k
    · simp [ainsert, hk, alookup]
    · simp [ainsert, hk, alookup, ih]

theorem alookup_ainsert_ne {β : Type} (k j : String) (v : β) (l : List (String × β))
    (h : j ≠ k) : alookup j (ainsert k v l) = alookup j l := by
  have hkj : k ≠ j := Ne.symm h
  induction l with
  | nil => simp [ainsert, alookup, hkj]
  | cons hd t ih =>
    obtain ⟨k', w⟩ := hd
    by_cases hk : k' = k
    · subst hk; simp [ainsert, alookup, hkj]
    · by_cases hj : k' = j <;> simp [ainsert, hk, alookup, hj, ih, h]

theorem alookup_aerase_ne {β : Type} (k j : String) (l : List (String × β))
    (h : j ≠ k) : alookup j (aerase k l) = alookup j l := by
  have hkj : k ≠ j := Ne.symm h
  induction l with
  | nil => simp [aerase]
  | cons hd t ih =>
    obtain ⟨k', w⟩ := hd
    by_cases hk : k' = k
    · subst hk; simp [aerase, alookup, hkj]
    · by_cases hj : k' = j <;> simp [aerase, hk, alookup, hj, ih, h]

theorem mem_ainsert_self {β : Type} (k : String) (v : β) (l : List (String × β)) :
    (k, v) ∈ ainsert k v l := by
  induction l with
  | nil => simp [ainsert]
  | cons hd t ih =>
    obtain ⟨k', w⟩ := hd
    by_cases hk : k' = k
    · simp [ainsert, hk]
    · simp [ainsert, hk, ih]

/-! ### Character-level string helpers (Python `str` methods) -/

def isWS (c : Char) : Bool := c.isWhitespace

/-- Model of `str.lstrip`-side of stripping: drop leading whitespace. -/
def ltrim (l : List Char) : List Char := l.dropWhile isWS

/-- Model of `str.rstrip`-side of stripping: drop trailing whitespace. -/
def rtrim (l : List Char) : List Char := (l.reverse.dropWhile isWS).reverse

/-- Character-list model of Python `str.strip()`. -/
def stripL (l : List Char) : List Char := rtrim (ltrim l)

/-- Python `str.strip()`. -/
def pyStrip (s : String) : String := ⟨stripL s.data⟩

/-- Python `str.lower()`. -/
def pyLower (s : String) : String := ⟨s.data.map Char.toLower⟩

/-- Does `needle` occur at the start of `hay`? -/
def chStarts : List Char → List Char → Bool
  | [], _ => true
  | _ :: _, [] => false
  | a :: as, b :: bs => a == b && chStarts as bs

/-- Contiguous-substring occurrence, modelling Python `needle in hay`. -/
def chContains (needle : List Char) : List Char → Bool
  | [] => needle.isEmpty
  | b :: bs => chStarts needle (b :: bs) || chContains needle bs

/-- Python `term in s` on strings. -/
def pyIn (needle hay : String) : Bool := chContains needle.data hay.data

theorem dropWhile_dropWhile (p : Char → Bool) (l : List Char) :
    (l.dropWhile p).dropWhile p = l.dropWhile p := by
  induction l with
  | nil => rfl
  | cons a t ih =>
    by_cases ha : p a
    · simp [List.dropWhile_cons, ha, ih]
    · simp [List.dropWhile_cons, ha]

theorem dropWhile_head_false (p : Char → Bool) (l : List Char) (a : Char) (t : List Char)
    (h : l.dropWhile p = a :: t) : p a = false := by
  induction l with
  | nil => simp [List.dropWhile] at h
  | cons b l ih =>
    by_cases hb : p b
    · rw [List.dropWhile_cons, if_pos hb] at h; exact ih h
    · rw [List.dropWhile_cons, if_neg hb] at h
      cases h; simpa using hb

theorem dropWhile_suffix (p : Char → Bool) (l : List Char) :
    ∃ t, l = t ++ l.dropWhile p := by
  induction l with
  | nil => exact ⟨[], rfl⟩
  | cons a l ih =>
    by_cases ha : p a
    · obtain ⟨t, ht⟩ := ih
      exact ⟨a :: t, by simp [List.dropWhile_cons, ha, ← ht]⟩
    · exact ⟨[], by simp [List.dropWhile_cons, ha]⟩

theorem rtrim_rtrim (l : List Char) : rtrim (rtrim l) = rtrim l := by
  unfold rtrim
  rw [List.reverse_reverse, dropWhile_dropWhile]

theorem ltrim_rtrim_ltrim (l : List Char) : ltrim (rtrim (ltrim l)) = rtrim (ltrim l) := by
  rcases h : rtrim (ltrim l) with _ | ⟨a, r⟩
  · rfl
  · -- `rtrim m` is an initial segment of `m`, so its head is the head of
    -- `ltrim l`, which does not satisfy `isWS`.
    obtain ⟨pre, hpre⟩ := dropWhile_suffix isWS (ltrim l).reverse
    have hm : ltrim l = rtrim (ltrim l) ++ pre.reverse := by
      have := congrArg List.reverse hpre
      simpa [rtrim] using this
    rw [h] at hm
    have ha : isWS a = false := by
      exact dropWhile_head_false isWS l a (r ++ pre.reverse) (by simpa [ltrim] using hm)
    simp [ltrim, List.dropWhile_cons, ha]

theorem stripL_idem (l : List Char) : stripL (stripL l) = stripL l := by
  unfold stripL
  rw [ltrim_rtrim_ltrim, rtrim_rtrim]

theorem pyStrip_idem (s : String) : pyStrip (pyStrip s) = pyStrip s := by
  unfold pyStrip
  exact congrArg String.mk (stripL_idem s.data)

/-! ### Timestamps

The repository only ever creates timezone-aware UTC `datetime` values
(`datetime.now(timezone.utc)`), serialises them with `isoformat()` and
reads them back with `fromisoformat()`; the standard-library pair is a
lossless textual round-trip.  A UTC instant is modelled as a `Nat`, the
serialisation as its decimal rendering and the parser as the decimal
reader, which reproduces the round-trip exactly. -/

abbrev PyDateTime := Nat

/-- Little-endian base-10 digits, fuel-structured so the kernel can
evaluate it. -/
def digitsRevAux : Nat → Nat → List Nat
  | 0, _ => []
  | _ + 1, 0 => []
  | f + 1, m + 1 => ((m + 1) % 10) :: digitsRevAux f ((m + 1) / 10)

def digitsRev (n : Nat) : List Nat := digitsRevAux n n

/-- Recombine little-endian base-10 digits. -/
def undigits : List Nat → Nat
  | [] => 0
  | d :: t => d + 10 * undigits t

def digitToChar (d : Nat) : Char := Nat.digitChar d

def charToDigit? (c : Char) : Option Nat :=
  if c = '0' then some 0 else if c = '1' then some 1
  else if c = '2' then some 2 else if c = '3' then some 3
  else if c = '4' then some 4 else if c = '5' then some 5
  else if c = '6' then some 6 else if c = '7' then some 7
  else if c = '8' then some 8 else if c = '9' then some 9 else none

/-- Model of `datetime.isoformat()`: the decimal rendering of the instant. -/
def isoformat (n : PyDateTime) : String := ⟨(digitsRev n).reverse.map digitToChar⟩

/-- Model of `datetime.fromisoformat()`: parse the decimal rendering; any other
string raises `ValueError`. -/
def fromisoformat (s : String) : Option PyDateTime :=
  match s.data.mapM charToDigit? with
  | some ds => some (undigits ds.reverse)
  | none => none

theorem charToDigit_digitToChar (d : Nat) (hd : d < 10) :
    charToDigit? (digitToChar d) = some d := by
  interval_cases d <;> rfl

theorem digitsRevAux_lt (fuel n d : Nat) (h : d ∈ digitsRevAux fuel n) : d < 10 := by
  induction fuel generalizing n with
  | zero => simp [digitsRevAux] at h
  | succ f ih =>
    match n with
    | 0 => simp [digitsRevAux] at h
    | m + 1 =>
      rw [digitsRevAux] at h
      rcases List.mem_cons.mp h with h1 | h2
      · exact h1 ▸ Nat.mod_lt _ (by omega)
      · exact ih _ h2

theorem undigits_digitsRevAux (fuel n : Nat) (h : n ≤ fuel) :
    undigits (digitsRevAux fuel n) = n := by
  induction fuel generalizing n with
  | zero =>
    have : n = 0 := Nat.le_zero.mp h
    simp [this, digitsRevAux, undigits]
  | succ f ih =>
    match n with
    | 0 => simp [digitsRevAux, undigits]
    | m + 1 =>
      rw [digitsRevAux, undigits]
      have hdiv : (m + 1) / 10 ≤ f := by
        have := Nat.div_lt_self (Nat.succ_pos m) (by omega : 1 < 10)
        omega
      rw [ih _ hdiv]
      exact Nat.mod_add_div (m + 1) 10

theorem mapM_charToDigit_map (l : List Nat) (h : ∀ d ∈ l, d < 10) :
    (l.map digitToChar).mapM charToDigit? = some l := by
  induction l with
  | nil => rfl
  | cons d t ih =>
    have hd : d < 10 := h d (List.mem_cons_self d t)
    have ht : ∀ x ∈ t, x < 10 := fun x hx => h x (List.mem_cons_of_mem d hx)
    rw [List.map_cons, List.mapM_cons, charToDigit_digitToChar d hd, ih ht]
    rfl

theorem fromisoformat_isoformat (n : PyDateTime) :
    fromisoformat (isoformat n) = some n := by
  unfold fromisoformat isoformat
  have hlt : ∀ d ∈ (digitsRev n).reverse, d < 10 := fun d hd =>
    digitsRevAux_lt n n d (List.mem_reverse.mp hd)
  rw [show (String.mk ((digitsRev n).reverse.map digitToChar)).data
        = (digitsRev n).reverse.map digitToChar from rfl]
  rw [mapM_charToDigit_map _ hlt]
  simp [List.reverse_reverse, digitsRev, undigits_digitsRevAux n n (Nat.le_refl n)]

/-! ### Error taxonomy (`vault/errors.py` plus built-in Python errors) -/

inductive VErr where
  /-- Python `ValueError`, raised by the field validators. -/
  | valueError : VErr
  /-- Python `KeyError`, raised by `Note.from_dict` on a missing title. -/
  | keyError : VErr
  /-- Model of `vault.errors.StorageError`. -/
  | storage : VErr
  /-- Model of `vault.errors.NoteNotFoundError`, carrying the identifier. -/
  | notFound (noteId : String) : VErr
  /-- Model of `vault.errors.DuplicateTitleError`, carrying the title. -/
  | duplicateTitle (title : String) : VErr
deriving DecidableEq, Repr

/-! ### Field validators (`vault/fields.py`) -/

/-- Model of `TitleField.validate`: length at most 100 and every character
alphanumeric or whitespace; returns the value unchanged. -/
def titleValidate (s : String) : Except VErr String :=
  if 100 < s.length then .error .valueError
  else if s.data.all (fun c => c.isAlphanum || c.isWhitespace) then .ok s
  else .error .valueError

/-- Model of `ContentField.validate`: length in [10, 10000]; returns the value
unchanged. -/
def contentValidate (s : String) : Except VErr String :=
  if s.length < 10 then .error .valueError
  else if 10000 < s.length then .error .valueError
  else .ok s

/-- The two shapes of Python input accepted by `TagsField.validate`. -/
inductive TagsInput where
  | str (s : String) : TagsInput
  | list (l : List String) : TagsInput
deriving DecidableEq, Repr

/-- The raw tag list before stripping: a comma-separated string is
split, a list is taken as-is. -/
def tagsBase : TagsInput → List String
  | .str s => s.splitOn ","
  | .list l => l

/-- Model of `TagsField.validate`: split/strip, drop empties, at most 20 tags of
at most 30 characters each. -/
def tagsValidate (v : TagsInput) : Except VErr (List String) :=
  let ts := ((tagsBase v).map pyStrip).filter (fun t => decide (t ≠ ""))
  if 20 < ts.length then .error .valueError
  else if ts.any (fun t => decide (30 < t.length)) then .error .valueError
  else .ok ts

/-- Model of `BaseField.__set__` for the required `title` descriptor: `None` is
rejected, any other value goes through `TitleField.validate`. -/
def setTitle (v : Option String) : Except VErr String :=
  match v with
  | none => .error .valueError
  | some s => titleValidate s

/-- Model of `BaseField.__set__` for the required `content` descriptor. -/
def setContent (v : Option String) : Except VErr String :=
  match v with
  | none => .error .valueError
  | some s => contentValidate s

/-- Model of `BaseField.__set__` for the optional `tags` descriptor: `None` is
stored as-is, other values go through `TagsField.validate`. -/
def setTags (v : Option TagsInput) : Except VErr (Option (List String)) :=
  match v with
  | none => .ok none
  | some t => (tagsValidate t).map some

/-! ### The Note entity (`vault/models.py`) -/

structure PyNote where
  id : String
  title : String
  content : String
  tags : Option (List String)
  created_at : PyDateTime
  last_modified : PyDateTime
  filename : String
deriving DecidableEq, Repr

/-- A `created_at`/`last_modified` argument to `Note.__init__`: either a
`datetime` object or an ISO string. -/
inductive TimeInput where
  | dt (d : PyDateTime) : TimeInput
  | iso (s : String) : TimeInput
deriving DecidableEq, Repr

/-- The timestamp branches of `Note.__init__`: absent means the default,
a string is parsed with `fromisoformat` (`ValueError` on bad input). -/
def resolveTime (x : Option TimeInput) (dflt : PyDateTime) : Except VErr PyDateTime :=
  match x with
  | none => .ok dflt
  | some (.dt d) => .ok d
  | some (.iso s) =>
    match fromisoformat s with
    | some d => .ok d
    | none => .error .valueError

/-- Model of `Note.__init__`.  `fresh` stands for the `uuid4()` drawn when `id`
is absent, `now` for `datetime.now(timezone.utc)`.  Field assignments
run in source order; the first failing validator aborts construction. -/
def mkNote (title content : Option String) (tags : Option TagsInput)
    (id : Option String) (created_at last_modified : Option TimeInput)
    (filename : Option String) (fresh : String) (now : PyDateTime) :
    Except VErr PyNote :=
  let theId := match id with | some i => i | none => fresh
  match setTitle title with
  | .error e => .error e
  | .ok t =>
    match setContent content with
    | .error e => .error e
    | .ok c =>
      match setTags tags with
      | .error e => .error e
      | .ok tg =>
        match resolveTime created_at now with
        | .error e => .error e
        | .ok ca =>
          match resolveTime last_modified ca with
          | .error e => .error e
          | .ok lm =>
            .ok ⟨theId, t, c, tg, ca, lm,
              match filename with | some f => f | none => theId ++ ".md"⟩

/-- One metadata record of the index (`index.json` `notes` values); any
key may be absent, and `tags` defaults to the empty list wherever the
code reads it with `get("tags", [])`. -/
structure NoteMeta where
  id? : Option String
  title? : Option String
  tags : List String
  created_at? : Option String
  last_modified? : Option String
  filename? : Option String
deriving DecidableEq, Repr

/-- Model of `Note.to_dict`. -/
def toDict (n : PyNote) : NoteMeta :=
  { id? := some n.id
    title? := some n.title
    tags := n.tags.getD []
    created_at? := some (isoformat n.created_at)
    last_modified? := some (isoformat n.last_modified)
    filename? := some n.filename }

/-- Model of `Note.from_dict`: a missing title is a `KeyError`; everything else
is handed to `Note.__init__`. -/
def fromDict (m : NoteMeta) (content : String) (fresh : String) (now : PyDateTime) :
    Except VErr PyNote :=
  match m.title? with
  | none => .error .keyError
  | some t =>
    mkNote (some t) (some content) (some (.list m.tags)) m.id?
      (m.created_at?.map .iso) (m.last_modified?.map .iso) m.filename? fresh now

/-! ### The vault state machine (`vault/core.py`)

The on-disk state a vault operation can observe or change: the
`index.json` file (absent, unparseable, or a stored document) and the
`notes/` directory as a map from file name to file text.  Directory
existence is tracked so that the idempotent `ensure_vault_dirs_exist`
is represented faithfully.  Operations return their Python result (or
raised error) together with the post-state, since the file system
persists across an exception. -/

/-- The parsed content of `index.json`: whether the top-level "notes"
key is present, and the ordered id-to-metadata mapping under it. -/
structure IndexDoc where
  hasNotes : Bool
  notes : List (String × NoteMeta)
deriving DecidableEq, Repr

/-- The `index.json` file itself. -/
inductive IndexDisk where
  | absent : IndexDisk
  | malformed : IndexDisk
  | stored (d : IndexDoc) : IndexDisk
deriving DecidableEq, Repr

structure Vault where
  dirs : Bool
  indexFile : IndexDisk
  files : List (String × String)
deriving DecidableEq, Repr

/-- Model of `load_index`: missing file is an empty document, invalid JSON is a
`StorageError`. -/
def load_index (v : Vault) : Except VErr IndexDoc :=
  match v.indexFile with
  | .absent => .ok ⟨false, []⟩
  | .malformed => .error .storage
  | .stored d => .ok d

/-- Model of `save_index`: ensure directories exist, then overwrite the file. -/
def save_index (d : IndexDoc) (v : Vault) : Vault :=
  { v with dirs := true, indexFile := .stored d }

/-- Model of `_get_note_file_path`: content files are named `<id>.txt`. -/
def note_file_name (noteId : String) : String := noteId ++ ".txt"

/-- Model of `read_note_content`: missing file is `NoteNotFoundError`. -/
def read_note_content (noteId : String) (v : Vault) : Except VErr String :=
  match alookup (note_file_name noteId) v.files with
  | none => .error (.notFound noteId)
  | some c => .ok c

/-- Model of `write_note_content`: ensure directories exist, then write the file. -/
def write_note_content (noteId : String) (content : String) (v : Vault) : Vault :=
  { v with dirs := true, files := ainsert (note_file_name noteId) content v.files }

/-- Model of `_create_note_internal`: write the content file, then load-modify-save
the index.  `failSave` injects the os-level write failure of
`save_index`; the exception surfaces as a `StorageError` after the
content file is already on disk. -/
def create_note_internal (failSave : Bool) (n : PyNote) (v : Vault) :
    Vault × Except VErr Unit :=
  let v1 := write_note_content n.id n.content v
  match load_index v1 with
  | .error _ => (v1, .error .storage)
  | .ok d =>
    let d1 : IndexDoc := if d.hasNotes then d else ⟨true, []⟩
    let d2 : IndexDoc := ⟨true, ainsert n.id (toDict n) d1.notes⟩
    if failSave then ({ v1 with dirs := true }, .error .storage)
    else (save_index d2 v1, .ok ())

/-- Model of `_get_note_internal`: index lookup, content read, `Note.from_dict`;
unexpected reconstruction errors are wrapped into `StorageError`. -/
def get_note_internal (noteId : String) (fresh : String) (now : PyDateTime)
    (v : Vault) : Except VErr PyNote :=
  match load_index v with
  | .error _ => .error .storage
  | .ok d =>
    if d.hasNotes = false then .error (.notFound noteId)
    else
      match alookup noteId d.notes with
      | none => .error (.notFound noteId)
      | some meta =>
        match read_note_content noteId v with
        | .error e => .error e
        | .ok c =>
          match fromDict meta c fresh now with
          | .error _ => .error .storage
          | .ok n => .ok n

/-- Python truthiness of the optional `filename` metadata value. -/
def filenameTruthy (x : Option String) : Bool :=
  match x with
  | none => false
  | some s => decide (s ≠ "")

/-- Model of `_delete_note_internal`: resolve the entry, remove the content file
only when the recorded `filename` is truthy (a missing file is
tolerated), then delete the entry and save the index. -/
def delete_note_internal (noteId : String) (v : Vault) : Vault × Except VErr Unit :=
  match load_index v with
  | .error _ => (v, .error .storage)
  | .ok d =>
    if d.hasNotes = false then (v, .error (.notFound noteId))
    else
      match alookup noteId d.notes with
      | none => (v, .error (.notFound noteId))
      | some meta =>
        let v1 :=
          if filenameTruthy meta.filename? then
            { v with files := aerase (note_file_name noteId) v.files }
          else v
        let d2 : IndexDoc := ⟨d.hasNotes, aerase noteId d.notes⟩
        (save_index d2 v1, .ok ())

/-- Model of `_find_note_id_by_title`: linear scan of the index for an exact
title match. -/
def find_note_id_by_title (title : String) (v : Vault) :
    Except VErr (Option String) :=
  match load_index v with
  | .error _ => .error .storage
  | .ok d =>
    if d.hasNotes = false then .ok none
    else .ok ((d.notes.find? (fun p => decide (p.2.title? = some title))).map (·.1))

/-- Model of `create_note`: ensure directories, reject duplicate titles, build
the note (`fresh` is the generated id, `now` the creation instant) and
persist it. -/
def create_note (failSave : Bool) (title content : String)
    (tags : Option TagsInput) (fresh : String) (now : PyDateTime) (v : Vault) :
    Vault × Except VErr PyNote :=
  let v0 : Vault := { v with dirs := true }
  match find_note_id_by_title title v0 with
  | .error _ => (v0, .error .storage)
  | .ok (some _) => (v0, .error (.duplicateTitle title))
  | .ok none =>
    match mkNote (some title) (some content) tags (some fresh) none none none
        fresh now with
    | .error e => (v0, .error e)
    | .ok n =>
      match create_note_internal failSave n v0 with
      | (v1, .ok ()) => (v1, .ok n)
      | (v1, .error _) => (v1, .error .storage)

/-- One loop iteration of `search_notes`: try title, then tags, then
content; any per-note `NoteNotFoundError`/`StorageError` skips the
note. -/
def searchEntry (term : String) (fresh : String) (now : PyDateTime) (v : Vault)
    (noteId : String) (meta : NoteMeta) : Option PyNote :=
  let tl := pyLower term
  if pyIn tl (pyLower (meta.title?.getD "")) then
    (get_note_internal noteId fresh now v).toOption
  else if meta.tags.any (fun tg => pyIn tl (pyLower tg)) then
    (get_note_internal noteId fresh now v).toOption
  else
    match read_note_content noteId v with
    | .error _ => none
    | .ok c =>
      if pyIn tl (pyLower c) then (get_note_internal noteId fresh now v).toOption
      else none

/-- Model of `search_notes`: case-insensitive substring search over title, tags
and content, skipping unreadable notes; only an index-load failure
escapes as `StorageError`. -/
def search_notes (term : String) (fresh : String) (now : PyDateTime) (v : Vault) :
    Except VErr (List PyNote) :=
  match load_index v with
  | .error _ => .error .storage
  | .ok d =>
    if d.hasNotes = false then .ok []
    else .ok (d.notes.filterMap (fun p => searchEntry term fresh now v p.1 p.2))

/-- Model of `get_all_tags_with_counts`: fold over every tag occurrence of every
note. -/
def get_all_tags_with_counts (v : Vault) : Except VErr (List (String × Nat)) :=
  match load_index v with
  | .error _ => .error .storage
  | .ok d =>
    if d.hasNotes = false then .ok []
    else
      .ok (d.notes.foldl
        (fun acc p => p.2.tags.foldl
          (fun a tg => ainsert tg ((alookup tg a).getD 0 + 1) a) acc) [])

/-- The title sanitisation of `export_notes`: keep alphanumerics,
space, hyphen, underscore; then map spaces to underscores; an empty
result becomes "untitled". -/
def sanitizeTitle (title : String) : String :=
  let kept : List Char := title.data.map
    (fun c => if c.isAlphanum || c = ' ' || c = '-' || c = '_' then c else '_')
  let underscored : List Char := kept.map (fun c => if c = ' ' then '_' else c)
  if underscored.isEmpty then "untitled" else ⟨underscored⟩

/-- What `export_notes` leaves in the output directory: whether the
directory was created (`os.makedirs` reached) and the files written. -/
structure ExportOut where
  created : Bool
  outFiles : List (String × String)
deriving DecidableEq, Repr

/-- Model of `export_notes`: return early when the index has no "notes" key,
otherwise create the output directory and write one sanitised file per
readable note, skipping unreadable ones. -/
def export_notes (v : Vault) : Except VErr ExportOut :=
  match load_index v with
  | .error _ => .error .storage
  | .ok d =>
    if d.hasNotes = false then .ok ⟨false, []⟩
    else
      .ok ⟨true, d.notes.foldl
        (fun acc p =>
          match read_note_content p.1 v with
          | .error _ => acc
          | .ok c =>
            let title := p.2.title?.getD "Untitled"
            ainsert (sanitizeTitle title ++ ".txt")
              ("Title: " ++ title ++ "\n\n" ++ c) acc) []⟩

/-! ### Helper lemmas about the validators and the note entity -/

theorem map_eq_self {α : Type} (f : α → α) (l : List α) (h : ∀ x ∈ l, f x = x) :
    l.map f = l := by
  induction l with
  | nil => rfl
  | cons a t ih =>
    rw [List.map_cons, h a (List.mem_cons_self a t),
      ih (fun x hx => h x (List.mem_cons_of_mem a hx))]

theorem titleValidate_ok_eq (s x : String) (h : titleValidate s = .ok x) : x = s := by
  unfold titleValidate at h
  split at h
  · exact absurd h (by simp)
  · split at h
    · cases h; rfl
    · exact absurd h (by simp)

theorem contentValidate_ok_eq (s x : String) (h : contentValidate s = .ok x) :
    x = s := by
  unfold contentValidate at h
  split at h
  · exact absurd h (by simp)
  · split at h
    · exact absurd h (by simp)
    · cases h; rfl

/-- A successfully validated tag list is stripped, free of empties, and
within the size bounds. -/
theorem tagsValidate_ok_inv (v : TagsInput) (l : List String)
    (h : tagsValidate v = .ok l) :
    (∀ t ∈ l, pyStrip t = t ∧ t ≠ "") ∧ ¬ 20 < l.length ∧
      l.any (fun t => decide (30 < t.length)) = false := by
  unfold tagsValidate at h
  simp only at h
  split at h
  · exact absurd h (by simp)
  · rename_i hlen
    split at h
    · exact absurd h (by simp)
    · rename_i hany
      cases h
      refine ⟨?_, hlen, by simpa using hany⟩
      intro t ht
      obtain ⟨htmem, htne⟩ := List.mem_filter.mp ht
      constructor
      · obtain ⟨u, _, hu⟩ := List.mem_map.mp htmem
        rw [← hu, pyStrip_idem]
      · simpa using htne

/-- Re-validating an already validated tag list is the identity: the
round-trip through `to_dict`/`from_dict` leaves tags unchanged. -/
theorem tagsValidate_idem (v : TagsInput) (l : List String)
    (h : tagsValidate v = .ok l) : tagsValidate (.list l) = .ok l := by
  obtain ⟨helts, hlen, hany⟩ := tagsValidate_ok_inv v l h
  unfold tagsValidate
  have hmap : l.map pyStrip = l := map_eq_self pyStrip l (fun x hx => (helts x hx).1)
  have hfilter : l.filter (fun t => decide (t ≠ "")) = l :=
    List.filter_eq_self.mpr (fun a ha => by simpa using (helts a ha).2)
  simp only [tagsBase, hmap, hfilter]
  rw [if_neg hlen, if_neg (by simpa using hany)]

theorem setTags_some_ok (v : TagsInput) (tg : Option (List String))
    (h : setTags (some v) = .ok tg) : ∃ l, tg = some l := by
  simp only [setTags] at h
  rcases htv : tagsValidate v with e | l <;> rw [htv] at h
  · exact absurd h (by simp [Except.map])
  · simp only [Except.map] at h
    cases h
    exact ⟨l, rfl⟩

theorem setTags_ok_idem (x : Option TagsInput) (tg : Option (List String))
    (h : setTags x = .ok tg) :
    setTags (some (.list (tg.getD []))) = .ok (some (tg.getD [])) := by
  rcases x with _ | v
  · -- tags were `None`: the record stores `[]`, which revalidates to `[]`
    simp only [setTags] at h
    cases h
    rfl
  · simp only [setTags] at h
    rcases htv : tagsValidate v with e | l
    · rw [htv] at h; exact absurd h (by simp [Except.map])
    · rw [htv] at h
      simp only [Except.map] at h
      cases h
      simp [setTags, Except.map, tagsValidate_idem v l htv]

/-- Inversion of a successful `Note.__init__` run: every validator
succeeded, and the fields are the validated values. -/
theorem mkNote_ok_inv (ti co : String) (tgO : Option TagsInput) (idO : Option String)
    (caO lmO : Option TimeInput) (fnO : Option String) (fr : String)
    (now : PyDateTime) (n : PyNote)
    (h : mkNote (some ti) (some co) tgO idO caO lmO fnO fr now = .ok n) :
    titleValidate ti = .ok n.title ∧ contentValidate co = .ok n.content ∧
      setTags tgO = .ok n.tags ∧ resolveTime caO now = .ok n.created_at ∧
      resolveTime lmO n.created_at = .ok n.last_modified ∧
      n.id = idO.getD fr ∧ n.filename = fnO.getD (n.id ++ ".md") := by
  unfold mkNote at h
  simp only [setTitle, setContent] at h
  rcases htv : titleValidate ti with e | t <;> rw [htv] at h <;> dsimp only at h
  · exact absurd h (by simp)
  rcases hcv : contentValidate co with e | c <;> rw [hcv] at h <;> dsimp only at h
  · exact absurd h (by simp)
  rcases hst : setTags tgO with e | tg <;> rw [hst] at h <;> dsimp only at h
  · exact absurd h (by simp)
  rcases hca : resolveTime caO now with e | ca <;> rw [hca] at h <;> dsimp only at h
  · exact absurd h (by simp)
  rcases hlm : resolveTime lmO ca with e | lm <;> rw [hlm] at h <;> dsimp only at h
  · exact absurd h (by simp)
  cases h
  refine ⟨rfl, rfl, rfl, rfl, hlm, ?_, ?_⟩
  · cases idO <;> rfl
  · cases fnO <;> cases idO <;> rfl

/-- Replacing a supplied id by an absent one cannot make `Note.__init__`
fail: the id is not validated, so the construction still succeeds and
the id becomes the freshly generated value. -/
theorem mkNote_id_fresh (ti co : String) (tgO : Option TagsInput) (j : String)
    (caO lmO : Option TimeInput) (fnO : Option String) (fr : String)
    (now : PyDateTime) (m0 : PyNote)
    (h : mkNote (some ti) (some co) tgO (some j) caO lmO fnO fr now = .ok m0) :
    ∃ n, mkNote (some ti) (some co) tgO none caO lmO fnO fr now = .ok n ∧
      n.id = fr := by
  unfold mkNote at h ⊢
  simp only [setTitle, setContent] at h ⊢
  rcases htv : titleValidate ti with e | t <;> rw [htv] at h <;>
    dsimp only at h <;> dsimp only
  · exact absurd h (by simp)
  rcases hcv : contentValidate co with e | c <;> rw [hcv] at h <;>
    dsimp only at h <;> dsimp only
  · exact absurd h (by simp)
  rcases hst : setTags tgO with e | tg <;> rw [hst] at h <;>
    dsimp only at h <;> dsimp only
  · exact absurd h (by simp)
  rcases hca : resolveTime caO now with e | ca <;> rw [hca] at h <;>
    dsimp only at h <;> dsimp only
  · exact absurd h (by simp)
  rcases hlm : resolveTime lmO ca with e | lm <;> rw [hlm] at h <;>
    dsimp only at h <;> dsimp only
  · exact absurd h (by simp)
  exact ⟨_, rfl, rfl⟩

/-! ### Concrete fixtures used by counterexamples and witnesses -/

/-- A completely fresh vault: no directories, no index file, no notes. -/
def vaultEmpty : Vault := ⟨false, .absent, []⟩

/-- An index record whose stored tag list mentions the tag "a" twice. -/
def dupTagMeta : NoteMeta :=
  ⟨some "n1", some "Note 1", ["a", "a"], none, none, some "n1.md"⟩

/-- A vault with a single note carrying the duplicated tag list. -/
def vaultDupTags : Vault :=
  ⟨true, .stored ⟨true, [("n1", dupTagMeta)]⟩, [("n1.txt", "0123456789")]⟩

/-! ### The claims -/

/-- C2: the claim says `get_all_tags_with_counts` maps each tag to the
number of **distinct notes** carrying it, a note with a duplicated tag
contributing exactly 1.  The code folds over every occurrence instead:
on a vault whose single note stores tags `["a", "a"]` it returns the
count 2, contradicting the claim (and the function's own docstring,
"the number of notes using that tag").  The second conjunct records the
part of the claim the code does satisfy: an empty vault yields an empty
mapping. -/
theorem spec_C2 :
    get_all_tags_with_counts vaultDupTags = .ok [("a", 2)] ∧
    get_all_tags_with_counts vaultEmpty = .ok [] :=
  ⟨rfl, rfl⟩

/-- C3 counterexample: constructing a Note with the empty string as
title does **not** fail: the required-field check of
`BaseField.__set__` only rejects `None`, and `TitleField.validate`
accepts `""` (length 0 ≤ 100, no characters to reject), so the
construction succeeds with an empty title. -/
theorem spec_C3_cex :
    mkNote (some "") (some "0123456789") none none none none none "id0" 0 =
      .ok ⟨"id0", "", "0123456789", none, 0, 0, "id0.md"⟩ :=
  rfl

/-- C3 as amended: a `None` title is rejected with `ValueError` for
every other argument (the required-field rule), while the empty string
passes the title validator, so a Note with an empty title and any valid
content can be created. -/
theorem spec_C3 (co fr : String) (now : PyDateTime)
    (hco : contentValidate co = .ok co) :
    (∀ (co2 : Option String) (tgO : Option TagsInput) (idO : Option String)
        (caO lmO : Option TimeInput) (fnO : Option String) (fr2 : String)
        (now2 : PyDateTime),
      mkNote none co2 tgO idO caO lmO fnO fr2 now2 = .error .valueError) ∧
    mkNote (some "") (some co) none none none none none fr now =
      .ok ⟨fr, "", co, none, now, now, fr ++ ".md"⟩ := by
  constructor
  · intro co2 tgO idO caO lmO fnO fr2 now2
    rfl
  · unfold mkNote
    rw [show setTitle (some "") = .ok "" from rfl]
    dsimp only
    rw [show setContent (some co) = contentValidate co from rfl, hco]
    rfl

/-- Witness for C3 at a concrete valid content. -/
theorem spec_C3_witness :
    contentValidate "0123456789" = .ok "0123456789" ∧
    (mkNote none (some "0123456789") none none none none none "w1" 3 =
        .error .valueError ∧
      mkNote (some "") (some "0123456789") none none none none none "w1" 3 =
        .ok ⟨"w1", "", "0123456789", none, 3, 3, "w1.md"⟩) :=
  ⟨rfl, by
    have h := spec_C3 "0123456789" "w1" 3 rfl
    exact ⟨h.1 (some "0123456789") none none none none none "w1" 3, h.2⟩⟩

/-- C7: the claim says the filename recorded in the index equals the
content file name on disk (`<id>.txt` for both).  On a fresh vault,
creating a note with generated id "n1" records `filename = "n1.md"` in
the index metadata (from `Note.__init__`) while the content file written
is "n1.txt" (from `_get_note_file_path`): the two extensions differ, so
the recorded filename never matches the disk file.  The repository's own
test (`test_models.test_init_minimal`) asserts the generated filename
ends in ".txt", so this is a slip in the code. -/
theorem spec_C7 :
    create_note false "A note" "0123456789" none "n1" 0 vaultEmpty =
      (⟨true,
        .stored ⟨true, [("n1",
          ⟨some "n1", some "A note", [], some "", some "", some "n1.md"⟩)]⟩,
        [("n1.txt", "0123456789")]⟩,
       .ok ⟨"n1", "A note", "0123456789", none, 0, 0, "n1.md"⟩) ∧
    ("n1.md" : String) ≠ "n1.txt" :=
  ⟨rfl, by decide⟩

/-- C8 counterexample: exporting an **empty vault** does not always
create the output directory.  On a fresh vault (no index file) the
loaded index lacks the "notes" key and `export_notes` returns before
reaching `os.makedirs`: the result records `created = false`. -/
theorem spec_C8_cex : export_notes vaultEmpty = .ok ⟨false, []⟩ :=
  rfl

/-- C8 as amended: exporting an empty vault writes zero files and
returns without error; the output directory is created only when the
index document has a "notes" key (necessarily with an empty mapping),
and is not created when the key is absent (fresh vault or index file
missing). -/
theorem spec_C8 (v : Vault) (d : IndexDoc) :
    (v.indexFile = .absent → export_notes v = .ok ⟨false, []⟩) ∧
    (v.indexFile = .stored d → d.hasNotes = false →
      export_notes v = .ok ⟨false, []⟩) ∧
    (v.indexFile = .stored d → d.hasNotes = true → d.notes = [] →
      export_notes v = .ok ⟨true, []⟩) := by
  refine ⟨?_, ?_, ?_⟩
  · intro h
    unfold export_notes load_index
    rw [h]
    rfl
  · intro h hh
    unfold export_notes load_index
    rw [h]
    simp [hh]
  · intro h hh hn
    unfold export_notes load_index
    rw [h]
    simp [hh, hn]

/-- Witness for C8: an emptied vault whose index still has the "notes"
key, and a fresh vault without one. -/
theorem spec_C8_witness :
    export_notes ⟨true, .stored ⟨true, []⟩, []⟩ = .ok ⟨true, []⟩ ∧
    export_notes ⟨false, .absent, []⟩ = .ok ⟨false, []⟩ :=
  ⟨(spec_C8 ⟨true, .stored ⟨true, []⟩, []⟩ ⟨true, []⟩).2.2 rfl rfl rfl,
   (spec_C8 ⟨false, .absent, []⟩ ⟨true, []⟩).1 rfl⟩

/-- A metadata record with no "id" key. -/
def metaC9 : NoteMeta :=
  ⟨none, some "A note", [], none, none, some "fixed.txt"⟩

/-- C9: `Note.from_dict` does not fail on a record lacking the "id"
key.  Whenever the record reconstructs successfully with some id value
present, the same record with the id absent also reconstructs, and the
resulting note's id is the freshly generated UUID `fr`, not a value
from the record. -/
theorem spec_C9 (m : NoteMeta) (content fr j : String) (now : PyDateTime)
    (m0 : PyNote)
    (h : fromDict { m with id? := some j } content fr now = .ok m0) :
    ∃ n, fromDict { m with id? := none } content fr now = .ok n ∧
      n.id = fr := by
  unfold fromDict at h ⊢
  dsimp only at h ⊢
  rcases hti : m.title? with _ | t <;> rw [hti] at h
  · exact absurd h (by simp)
  · exact mkNote_id_fresh t content (some (.list m.tags)) j
      (m.created_at?.map .iso) (m.last_modified?.map .iso) m.filename? fr now m0 h

/-- Witness for C9 at a concrete record without an "id" key. -/
theorem spec_C9_witness :
    (fromDict { metaC9 with id? := some "j0" } "0123456789" "fr0" 2 =
      .ok ⟨"j0", "A note", "0123456789", some [], 2, 2, "fixed.txt"⟩) ∧
    ∃ n, fromDict { metaC9 with id? := none } "0123456789" "fr0" 2 = .ok n ∧
      n.id = "fr0" :=
  ⟨rfl, spec_C9 metaC9 "0123456789" "fr0" "j0" 2 _ rfl⟩

/-- C6 counterexample: the round-trip is **not** the identity on the
`tags` field when the original note was built with `tags=None`:
`to_dict` serialises `None` as `[]`, and the reconstructed note carries
`[]`, observably different from the original's `None`. -/
theorem spec_C6_cex :
    mkNote (some "A note") (some "0123456789") none (some "n1") none none none
        "n1" 0 =
      .ok ⟨"n1", "A note", "0123456789", none, 0, 0, "n1.md"⟩ ∧
    fromDict (toDict ⟨"n1", "A note", "0123456789", none, 0, 0, "n1.md"⟩)
        "0123456789" "f2" 7 =
      .ok ⟨"n1", "A note", "0123456789", some [], 0, 0, "n1.md"⟩ ∧
    (⟨"n1", "A note", "0123456789", some [], 0, 0, "n1.md"⟩ : PyNote) ≠
      ⟨"n1", "A note", "0123456789", none, 0, 0, "n1.md"⟩ :=
  ⟨rfl, rfl, by decide⟩

/-- C6 as amended: for every note built by `Note.__init__` with a
tags argument actually supplied (a string or a list, not `None`),
`from_dict(to_dict(note), note.content)` reconstructs the note exactly:
id, title, tags, created_at, last_modified, filename and content all
agree.  (When tags is `None` the reconstruction differs only in tags,
which become the empty list — see the counterexample.) -/
theorem spec_C6 (ti co : String) (tg : TagsInput) (idO : Option String)
    (caO lmO : Option TimeInput) (fnO : Option String) (fr f2 : String)
    (now now2 : PyDateTime) (n : PyNote)
    (h : mkNote (some ti) (some co) (some tg) idO caO lmO fnO fr now = .ok n) :
    fromDict (toDict n) n.content f2 now2 = .ok n := by
  obtain ⟨htv, hcv, hst, hca, hlm, hid, hfn⟩ :=
    mkNote_ok_inv ti co (some tg) idO caO lmO fnO fr now n h
  obtain ⟨l, hl⟩ := setTags_some_ok tg n.tags hst
  have hst2 := setTags_ok_idem (some tg) n.tags hst
  obtain ⟨nid, nti, nco, ntg, nca, nlm, nfn⟩ := n
  dsimp only at htv hcv hst hca hlm hid hfn hl hst2
  obtain rfl : nti = ti := titleValidate_ok_eq ti nti htv
  obtain rfl : nco = co := contentValidate_ok_eq co nco hcv
  subst hl
  unfold fromDict toDict
  dsimp only
  unfold mkNote
  simp only [setTitle, setContent]
  rw [htv]
  dsimp only
  rw [hcv]
  dsimp only
  rw [hst2]
  dsimp only
  simp only [Option.map, Option.getD]
  rw [show resolveTime (some (.iso (isoformat nca))) now2 = .ok nca from by
    simp [resolveTime, fromisoformat_isoformat]]
  dsimp only
  rw [show resolveTime (some (.iso (isoformat nlm))) nca = .ok nlm from by
    simp [resolveTime, fromisoformat_isoformat]]

/-- Witness for C6 at a concrete note with supplied tags. -/
theorem spec_C6_witness :
    (mkNote (some "A note") (some "0123456789") (some (.list ["work"]))
        (some "n1") none none none "n1" 0 =
      .ok ⟨"n1", "A note", "0123456789", some ["work"], 0, 0, "n1.md"⟩) ∧
    fromDict (toDict ⟨"n1", "A note", "0123456789", some ["work"], 0, 0, "n1.md"⟩)
        "0123456789" "f2" 9 =
      .ok ⟨"n1", "A note", "0123456789", some ["work"], 0, 0, "n1.md"⟩ :=
  ⟨rfl, spec_C6 "A note" "0123456789" (.list ["work"]) (some "n1") none none
    none "n1" "f2" 0 9 _ rfl⟩

/-- C10: when the index record of `noteId` has no "filename" key (or an
empty value, both falsy in Python), `_delete_note_internal` skips the
content-file removal entirely: the files on disk are untouched (so a
content file for that id, if present, remains as an orphan), while the
index entry is removed and the index saved. -/
theorem spec_C10 (v : Vault) (d : IndexDoc) (noteId : String) (meta : NoteMeta)
    (hidx : v.indexFile = .stored d) (hhas : d.hasNotes = true)
    (hfind : alookup noteId d.notes = some meta)
    (hfn : meta.filename? = none ∨ meta.filename? = some "") :
    delete_note_internal noteId v =
      ({ dirs := true, indexFile := .stored ⟨true, aerase noteId d.notes⟩,
         files := v.files }, .ok ()) := by
  have hft : filenameTruthy meta.filename? = false := by
    rcases hfn with h | h <;> simp [filenameTruthy, h]
  simp [delete_note_internal, load_index, hidx, hhas, hfind, hft, save_index]

/-- Witness for C10: a vault whose single index record has no
"filename" key; its content file survives the delete. -/
theorem spec_C10_witness :
    (Vault.mk true (.stored ⟨true, [("n1", ⟨some "n1", some "T", [], none,
        none, none⟩)]⟩) [("n1.txt", "orphan body")]).indexFile =
      .stored ⟨true, [("n1", ⟨some "n1", some "T", [], none, none, none⟩)]⟩ ∧
    delete_note_internal "n1"
        ⟨true, .stored ⟨true, [("n1", ⟨some "n1", some "T", [], none, none,
          none⟩)]⟩, [("n1.txt", "orphan body")]⟩ =
      (⟨true, .stored ⟨true, []⟩, [("n1.txt", "orphan body")]⟩, .ok ()) :=
  ⟨rfl,
    spec_C10 _ ⟨true, [("n1", ⟨some "n1", some "T", [], none, none, none⟩)]⟩
      "n1" ⟨some "n1", some "T", [], none, none, none⟩ rfl rfl rfl (Or.inl rfl)⟩

/-- C4: with the index save failing (fault injected), the creation
protocol has already written the content file: the run raises a
`StorageError`, the content file remains on disk as an orphan (second
conjunct), and the index file is exactly what it was, so the new entry
is absent.  This holds for every prior vault state, which also shows
the content write happens before the index save. -/
theorem spec_C4 (n : PyNote) (v : Vault) :
    create_note_internal true n v =
      ({ dirs := true, indexFile := v.indexFile,
         files := ainsert (note_file_name n.id) n.content v.files },
       .error .storage) ∧
    alookup (note_file_name n.id)
        (ainsert (note_file_name n.id) n.content v.files) = some n.content := by
  constructor
  · unfold create_note_internal write_note_content load_index
    rcases v with ⟨dirs, idx, files⟩
    rcases idx with _ | _ | d <;> rfl
  · exact alookup_ainsert_self _ _ _

/-- Inversion of a successful `create_note` run: the note's title is the
requested one, and the resulting vault has directories in place and an
index whose "notes" mapping contains the new entry. -/
theorem create_note_ok_inv (t c : String) (tg : Option TagsInput)
    (fr : String) (now : PyDateTime) (v v1 : Vault) (n : PyNote)
    (h : create_note false t c tg fr now v = (v1, .ok n)) :
    n.title = t ∧ v1.dirs = true ∧
      ∃ notes1, v1.indexFile = .stored ⟨true, notes1⟩ ∧
        (n.id, toDict n) ∈ notes1 := by
  unfold create_note at h
  dsimp only at h
  rcases hf : find_note_id_by_title t { v with dirs := true } with e | o <;>
    rw [hf] at h
  · simp at h
  rcases o with _ | j
  case some => simp at h
  dsimp only at h
  rcases hmk : mkNote (some t) (some c) tg (some fr) none none none fr now
    with e | n' <;> rw [hmk] at h <;> dsimp only at h
  · exact absurd h (by simp)
  rcases hci : create_note_internal false n' { v with dirs := true }
    with ⟨v1', r⟩
  rw [hci] at h
  rcases r with e | u
  · exact absurd h (by simp)
  obtain ⟨h1, h2⟩ : v1' = v1 ∧ n' = n := by simpa using h
  have hti : n'.title = t := by
    obtain ⟨htv, -, -, -, -, -, -⟩ :=
      mkNote_ok_inv t c tg (some fr) none none none fr now n' hmk
    exact titleValidate_ok_eq t n'.title htv
  rw [← h1, ← h2]
  unfold create_note_internal at hci
  dsimp only at hci
  rcases hld : load_index
      (write_note_content n'.id n'.content { v with dirs := true })
    with e | d0 <;> rw [hld] at hci <;> dsimp only at hci
  · exact absurd hci (by simp)
  obtain ⟨h3, -⟩ : save_index
      ⟨true, ainsert n'.id (toDict n')
        (if d0.hasNotes then d0 else ⟨true, []⟩).notes⟩
      (write_note_content n'.id n'.content { v with dirs := true }) = v1' ∧
      True := by simpa using hci
  rw [← h3]
  exact ⟨hti, rfl, _, rfl, mem_ainsert_self _ _ _⟩

/-- C1: once `create_note` has succeeded for a title, a later
`create_note` with the same title on the resulting vault fails with
`DuplicateTitleError` and returns the vault state completely unchanged:
the index document, every content file — hence also the note count —
are exactly those after the first creation. -/
theorem spec_C1 (t c : String) (tg : Option TagsInput) (fr : String)
    (now : PyDateTime) (v v1 : Vault) (n : PyNote)
    (h : create_note false t c tg fr now v = (v1, .ok n))
    (fs2 : Bool) (c2 : String) (tg2 : Option TagsInput) (fr2 : String)
    (now2 : PyDateTime) :
    create_note fs2 t c2 tg2 fr2 now2 v1 = (v1, .error (.duplicateTitle t)) := by
  obtain ⟨hti, hdirs, notes1, hidx, hmem⟩ :=
    create_note_ok_inv t c tg fr now v v1 n h
  have hv0 : ({ v1 with dirs := true } : Vault) = v1 := by
    rcases v1 with ⟨d1, i1, f1⟩
    cases hdirs
    rfl
  obtain ⟨q, hq⟩ : ∃ q,
      notes1.find? (fun p => decide (p.2.title? = some t)) = some q := by
    rw [← Option.isSome_iff_exists]
    exact List.find?_isSome.mpr ⟨(n.id, toDict n), hmem, by simp [toDict, hti]⟩
  have hfind : find_note_id_by_title t v1 = .ok (some q.1) := by
    unfold find_note_id_by_title load_index
    rw [hidx]
    dsimp only
    rw [hq]
    rfl
  unfold create_note
  dsimp only
  rw [hv0, hfind]

/-- Witness for C1: create "A note" on a fresh vault, then watch a
second creation with the same title fail and leave the vault as it
was. -/
theorem spec_C1_witness :
    (create_note false "A note" "0123456789" none "n1" 0 vaultEmpty =
      (⟨true,
        .stored ⟨true, [("n1",
          ⟨some "n1", some "A note", [], some "", some "", some "n1.md"⟩)]⟩,
        [("n1.txt", "0123456789")]⟩,
       .ok ⟨"n1", "A note", "0123456789", none, 0, 0, "n1.md"⟩)) ∧
    create_note false "A note" "different body" none "n2" 3
        ⟨true,
          .stored ⟨true, [("n1",
            ⟨some "n1", some "A note", [], some "", some "", some "n1.md"⟩)]⟩,
          [("n1.txt", "0123456789")]⟩ =
      (⟨true,
        .stored ⟨true, [("n1",
          ⟨some "n1", some "A note", [], some "", some "", some "n1.md"⟩)]⟩,
        [("n1.txt", "0123456789")]⟩,
       .error (.duplicateTitle "A note")) :=
  ⟨rfl, spec_C1 "A note" "0123456789" none "n1" 0 vaultEmpty _ _ rfl
    false "different body" none "n2" 3⟩

/-- A note whose content file is absent is always skipped by the search
loop: each of the three match branches needs the content file. -/
theorem searchEntry_none_of_missing (term fr : String) (now : PyDateTime)
    (w : Vault) (i : String) (meta : NoteMeta)
    (hm : alookup (note_file_name i) w.files = none) :
    searchEntry term fr now w i meta = none := by
  have hro : read_note_content i w = .error (.notFound i) := by
    unfold read_note_content
    rw [hm]
  have hget : (get_note_internal i fr now w).toOption = none := by
    unfold get_note_internal
    rcases hld : load_index w with e | d
    · rfl
    · dsimp only
      by_cases hb : d.hasNotes = false
      · rw [if_pos hb]
        rfl
      · rw [if_neg hb]
        rcases hal : alookup i d.notes with _ | meta'
        · rfl
        · rw [hro]
          rfl
  unfold searchEntry
  dsimp only
  split
  · exact hget
  · split
    · exact hget
    · rw [hro]

/-- The lookup `_get_note_internal` only reads the index file and the
note's own content file. -/
theorem get_note_internal_congr (i fr : String) (now : PyDateTime) (v v' : Vault)
    (hidx : v'.indexFile = v.indexFile)
    (hfile : alookup (note_file_name i) v'.files =
      alookup (note_file_name i) v.files) :
    get_note_internal i fr now v' = get_note_internal i fr now v := by
  have hl : load_index v' = load_index v := by
    unfold load_index
    rw [hidx]
  have hr : read_note_content i v' = read_note_content i v := by
    unfold read_note_content
    rw [hfile]
  unfold get_note_internal
  rw [hl, hr]

/-- One search iteration only looks at the index file and the note's own
content file, so deleting a different note's content file does not
change its outcome. -/
theorem searchEntry_congr (term fr : String) (now : PyDateTime) (v v' : Vault)
    (j : String) (meta : NoteMeta)
    (hidx : v'.indexFile = v.indexFile)
    (hfile : alookup (note_file_name j) v'.files =
      alookup (note_file_name j) v.files) :
    searchEntry term fr now v' j meta = searchEntry term fr now v j meta := by
  have hg := get_note_internal_congr j fr now v v' hidx hfile
  have hr : read_note_content j v' = read_note_content j v := by
    unfold read_note_content
    rw [hfile]
  unfold searchEntry
  rw [hg, hr]

/-- C5: over a corpus in which the content file of note `i` has gone
missing out-of-band (any vault `v'` agreeing with `v` on the index and
on every other note's file), `search_notes` still returns `.ok` — it
does not raise — with note `i` skipped and every other entry
contributing exactly what it contributes on the intact vault `v`; and
on a malformed index file `search_notes` still fails with
`StorageError`. -/
theorem spec_C5 (term fr : String) (now : PyDateTime) (v v' : Vault)
    (d : IndexDoc) (i : String)
    (hidx : v.indexFile = .stored d) (hidx' : v'.indexFile = .stored d)
    (hhas : d.hasNotes = true)
    (hmiss : alookup (note_file_name i) v'.files = none)
    (hsame : ∀ p ∈ d.notes, p.1 ≠ i →
      alookup (note_file_name p.1) v'.files =
        alookup (note_file_name p.1) v.files) :
    search_notes term fr now v' =
      .ok (d.notes.filterMap
        (fun p => if p.1 = i then none
          else searchEntry term fr now v p.1 p.2)) ∧
    ∀ w : Vault, w.indexFile = .malformed →
      search_notes term fr now w = .error .storage := by
  constructor
  · unfold search_notes load_index
    rw [hidx']
    dsimp only
    rw [if_neg (by simp [hhas])]
    congr 1
    apply List.filterMap_congr
    intro p hp
    by_cases hpi : p.1 = i
    · rw [if_pos hpi]
      exact searchEntry_none_of_missing term fr now v' p.1 p.2
        (by rw [hpi]; exact hmiss)
    · rw [if_neg hpi]
      exact searchEntry_congr term fr now v v' p.1 p.2
        (by rw [hidx', hidx]) (hsame p hp hpi)
  · intro w hw
    unfold search_notes load_index
    rw [hw]

/-- Witness for C5: two notes both matching the term by title; the
second note's content file has been deleted out-of-band, so only the
first is returned, and a malformed index still raises. -/
theorem spec_C5_witness :
    (alookup (note_file_name "n2")
      (Vault.mk true (.stored ⟨true,
        [("n1", ⟨some "n1", some "Test One", [], none, none, some "n1.md"⟩),
         ("n2", ⟨some "n2", some "Test Two", [], none, none, some "n2.md"⟩)]⟩)
        [("n1.txt", "first body")]).files = none) ∧
    search_notes "test" "f0" 0
        ⟨true, .stored ⟨true,
          [("n1", ⟨some "n1", some "Test One", [], none, none, some "n1.md"⟩),
           ("n2", ⟨some "n2", some "Test Two", [], none, none, some "n2.md"⟩)]⟩,
          [("n1.txt", "first body")]⟩ =
      .ok [⟨"n1", "Test One", "first body", some [], 0, 0, "n1.md"⟩] ∧
    search_notes "test" "f0" 0 ⟨true, .malformed, []⟩ = .error .storage := by
  have h := spec_C5 "test" "f0" 0
    ⟨true, .stored ⟨true,
      [("n1", ⟨some "n1", some "Test One", [], none, none, some "n1.md"⟩),
       ("n2", ⟨some "n2", some "Test Two", [], none, none, some "n2.md"⟩)]⟩,
      [("n1.txt", "first body"), ("n2.txt", "second body")]⟩
    ⟨true, .stored ⟨true,
      [("n1", ⟨some "n1", some "Test One", [], none, none, some "n1.md"⟩),
       ("n2", ⟨some "n2", some "Test Two", [], none, none, some "n2.md"⟩)]⟩,
      [("n1.txt", "first body")]⟩
    ⟨true,
      [("n1", ⟨some "n1", some "Test One", [], none, none, some "n1.md"⟩),
       ("n2", ⟨some "n2", some "Test Two", [], none, none, some "n2.md"⟩)]⟩
    "n2" rfl rfl rfl rfl (by decide)
  refine ⟨rfl, ?_, h.2 ⟨true, .malformed, []⟩ rfl⟩
  rw [h.1]
  rfl

end Mpkv
